import Mathlib

/-!
Shallow embedding of the ChessRNs move engine (src/Board_Class.py and
src/Piece_Class.py).

Python objects are modelled as follows.  A Piece instance is an object id
(a natural number) together with an attribute record held in a heap
(the Board field attrs); Python mutates attributes in place, which the
model renders as an update of that heap.  The two dictionaries
piece_to_coordinate and coordinate_to_piece are modelled as the total
functions p2c and c2p together with the insertion-ordered key list
pieces; the Python class Piece defines a hash but no equality, so its
dictionary keys compare by object identity, i.e. by the id.  XYPos
construction asserts that both components lie in 1..8; arithmetic that
leaves the board raises AssertionError, modelled by Option.
-/

namespace ChessRNs

/-- Color enumeration from Piece_Class.py. -/
inductive Color where
  | Black
  | White
  | Blank
deriving DecidableEq

/-- The Python class of a piece object.  base is the class Piece itself,
used for blank squares; Castle is the rook class name used in the source. -/
inductive Kind where
  | base
  | Pawn
  | Knight
  | Castle
  | Bishop
  | Queen
  | King
deriving DecidableEq

/-- The mutable attributes of a Piece object: color, origin-file index,
the moved flag, and the pawn-only moved_twice flag. -/
structure PieceAttrs where
  kind : Kind
  color : Color
  index : Nat
  moved : Bool
  movedTwice : Bool
deriving DecidableEq

/-- A board coordinate; XYPos in the source. -/
structure Coord where
  x : Int
  y : Int
deriving DecidableEq

/-- A movement vector [dx, dy] (a numpy array in the source). -/
abbrev Vec := Int × Int

/-- XYPos construction: asserts both components lie in 1..8,
AssertionError otherwise (modelled as none). -/
def mkCoord (x y : Int) : Option Coord :=
  if 1 ≤ x ∧ x ≤ 8 ∧ 1 ≤ y ∧ y ≤ 8 then some ⟨x, y⟩ else none

/-- XYPos.__add__ with a numpy vector: component-wise sum, asserting bounds. -/
def addCoord (c : Coord) (v : Vec) : Option Coord :=
  mkCoord (c.x + v.1) (c.y + v.2)

/-- Scalar multiple move_direction * k of a movement vector. -/
def smulVec (k : Nat) (v : Vec) : Vec :=
  ((k : Int) * v.1, (k : Int) * v.2)

/-- move * -1, the negated direction used for sliding pieces. -/
def negVec (v : Vec) : Vec :=
  (-v.1, -v.2)

/-- The movements method of each Piece subclass in Piece_Class.py,
dispatched on the class and reading the color and moved attributes. -/
def movements (a : PieceAttrs) : List Vec :=
  match a.kind with
  | Kind.base => [(0, 0)]
  | Kind.Pawn =>
    if a.color = Color.White then
      if a.moved then [(0, 1), (1, 1), (-1, 1)]
      else [(0, 1), (1, 1), (-1, 1), (0, 2)]
    else
      if a.moved then [(0, -1), (-1, -1), (1, -1)]
      else [(0, -1), (-1, -1), (1, -1), (0, -2)]
  | Kind.Knight =>
    [(1, 2), (2, 1), (2, -1), (1, -2), (-1, -2), (-2, -1), (-2, 1), (-1, 2)]
  | Kind.Castle => [(0, 1), (1, 0)]
  | Kind.Bishop => [(1, 1), (-1, 1)]
  | Kind.Queen => [(1, 1), (-1, 1), (0, 1), (1, 0)]
  | Kind.King =>
    if a.moved then [(1, 1), (-1, 1), (0, 1), (1, 0)]
    else [(1, 1), (-1, 1), (0, 1), (1, 0), (-2, 0), (2, 0)]

/-- The strong_piece method: overridden to True in Castle, Bishop, Queen. -/
def strongPiece (a : PieceAttrs) : Bool :=
  match a.kind with
  | Kind.Castle => true
  | Kind.Bishop => true
  | Kind.Queen => true
  | _ => false

/-- The Board state: the two mirrored dictionaries (as total maps plus
the insertion-ordered key list of piece_to_coordinate), the attribute
heap of all piece objects, and the two king object ids stored by
__init__. -/
structure Board where
  pieces : List Nat
  attrs : Nat → PieceAttrs
  p2c : Nat → Coord
  c2p : Coord → Nat
  whiteKing : Nat
  blackKing : Nat

/-- Board.update_board: writes both dictionaries; a Python dict
assignment keeps the key order when the key is present and appends it
otherwise. -/
def update_board (b : Board) (p : Nat) (c : Coord) : Board :=
  { b with
    pieces := if p ∈ b.pieces then b.pieces else b.pieces ++ [p]
    p2c := fun r => if r = p then c else b.p2c r
    c2p := fun c2 => if c2 = c then p else b.c2p c2 }

/-- The color of the occupant of a square, coordinate_to_piece[c].color. -/
def colorAt (b : Board) (c : Coord) : Color :=
  (b.attrs (b.c2p c)).color

/-- Board.get_king. -/
def get_king (b : Board) (c : Color) : Coord :=
  if c = Color.Black then b.p2c b.blackKing else b.p2c b.whiteKing

/-- The Python expression piece_at_en_passant is Pawn compares the
occupant object with the class object Pawn itself (not isinstance), so
it is False for every instance. -/
def instanceIsPawnClass : Bool := false

/-- Board.check_moves_strong, one iteration window: the loop body for
k, k+1, ... with the given amount of fuel (the source iterates
k in range(1, 9)).  A Blank square is added and the walk continues, an
enemy occupant is added and the walk stops, a friendly occupant stops
the walk without being added, and an out-of-bounds coordinate
(AssertionError) stops the walk. -/
def checkMovesStrongAux (b : Board) (cur : Coord) (dir : Vec) (pcol : Color) :
    Nat → Nat → List Coord
  | 0, _ => []
  | fuel + 1, k =>
    match addCoord cur (smulVec k dir) with
    | none => []
    | some pos =>
      if colorAt b pos = Color.Blank then
        pos :: checkMovesStrongAux b cur dir pcol fuel (k + 1)
      else if colorAt b pos ≠ pcol then [pos]
      else []

/-- Board.check_moves_strong: walk k = 1..8 along one direction. -/
def check_moves_strong (b : Board) (cur : Coord) (dir : Vec) (pcol : Color) :
    List Coord :=
  checkMovesStrongAux b cur dir pcol 8 1

/-- The far-castle occupancy condition of Board.get_moves: d, c, b of the
home rank blank and an unmoved Castle on the a file. -/
def farCastleOk (b : Board) (row : Int) : Bool :=
  decide (colorAt b ⟨4, row⟩ = Color.Blank) &&
  decide (colorAt b ⟨3, row⟩ = Color.Blank) &&
  decide (colorAt b ⟨2, row⟩ = Color.Blank) &&
  decide ((b.attrs (b.c2p ⟨1, row⟩)).kind = Kind.Castle) &&
  !(b.attrs (b.c2p ⟨1, row⟩)).moved

/-- The close-castle occupancy condition of Board.get_moves: f, g of the
home rank blank and an unmoved Castle on the h file. -/
def closeCastleOk (b : Board) (row : Int) : Bool :=
  decide (colorAt b ⟨6, row⟩ = Color.Blank) &&
  decide (colorAt b ⟨7, row⟩ = Color.Blank) &&
  decide ((b.attrs (b.c2p ⟨8, row⟩)).kind = Kind.Castle) &&
  !(b.attrs (b.c2p ⟨8, row⟩)).moved

/-- One iteration of the non-strong loop of Board.get_moves: the try
body for a single movement vector, returning the squares it adds.  The
branch structure follows the source: white-pawn diagonal, black-pawn
diagonal, king castling (which tests move[1], the y component, against
-2), and the default branch that only rejects a friendly occupant. -/
def stepCandidates (b : Board) (a : PieceAttrs) (cur : Coord) (mv : Vec) :
    List Coord :=
  match addCoord cur mv with
  | none => []
  | some pos =>
    let patA := b.attrs (b.c2p pos)
    if a.kind = Kind.Pawn ∧ a.color = Color.White ∧ (mv = (1, 1) ∨ mv = (-1, 1)) then
      match mkCoord pos.x (pos.y - 1) with
      | none => []
      | some ep =>
        let epA := b.attrs (b.c2p ep)
        if patA.color ≠ a.color ∧ patA.color ≠ Color.Blank then [pos]
        else if patA.color = Color.Blank ∧ instanceIsPawnClass = true ∧
            epA.movedTwice = true ∧ epA.color ≠ a.color then [pos]
        else []
    else if a.kind = Kind.Pawn ∧ a.color = Color.Black ∧ (mv = (-1, -1) ∨ mv = (1, -1)) then
      match mkCoord pos.x (pos.y + 1) with
      | none => []
      | some ep =>
        let epA := b.attrs (b.c2p ep)
        if patA.color ≠ a.color ∧ patA.color ≠ Color.Blank then [pos]
        else if patA.color = Color.Blank ∧ instanceIsPawnClass = true ∧
            epA.movedTwice = true ∧ epA.color ≠ a.color then [pos]
        else []
    else if a.kind = Kind.King ∧ (mv = (-2, 0) ∨ mv = (2, 0)) then
      let row : Int := if a.color = Color.Black then 8 else 1
      if mv.2 = -2 then
        if farCastleOk b row then [pos] else []
      else
        if closeCastleOk b row then [pos] else []
    else if patA.color ≠ a.color then [pos]
    else []

/-- Board.get_moves: pseudo-legal destinations of a piece.  Non-strong
pieces run the per-vector branch above; strong pieces cast each catalog
vector and its negation with check_moves_strong. -/
def get_moves (b : Board) (p : Nat) : List Coord :=
  let cur := b.p2c p
  let a := b.attrs p
  if strongPiece a = false then
    (movements a).foldl (fun acc mv => acc ++ stepCandidates b a cur mv) []
  else
    (movements a).foldl
      (fun acc mv =>
        acc ++ (check_moves_strong b cur mv a.color ++
                check_moves_strong b cur (negVec mv) a.color)) []

/-- The three update_board calls of Board.is_king_exposed in order: the
tentative move, then the two restoring writes, with the original
coordinate and the displaced occupant read from the pre-call state. -/
def kingExposedRestore (b : Board) (p : Nat) (pp : Coord) : Board :=
  update_board (update_board (update_board b p pp) (b.c2p pp) pp) p (b.p2c p)

/-- Board.is_king_exposed: tentatively moves the piece, asks whether any
opposing piece reaches the king of the moving side, and restores the two
maps on every exit path.  Returns the boolean together with the board
state after the call. -/
def is_king_exposed (b : Board) (p : Nat) (pp : Coord) : Bool × Board :=
  let b1 := update_board b p pp
  let opponents := b1.pieces.filter fun r =>
    decide ((b1.attrs r).color ≠ (b.attrs p).color) &&
    decide ((b1.attrs r).color ≠ Color.Blank)
  let kingPos := get_king b1 (b.attrs p).color
  (opponents.any fun o2 => decide (kingPos ∈ get_moves b1 o2),
   kingExposedRestore b p pp)

/-- The loop body of Board.get_valid_moves: the board state is threaded
through is_king_exposed, a surviving move is appended. -/
def gvmStep (p : Nat) (acc : List Coord × Board) (m : Coord) :
    List Coord × Board :=
  let r := is_king_exposed acc.2 p m
  (if r.1 = true then acc.1 else acc.1 ++ [m], r.2)

/-- Board.get_valid_moves: filters get_moves through is_king_exposed,
returning the surviving moves and the board state after the call. -/
def get_valid_moves (b : Board) (p : Nat) : List Coord × Board :=
  (get_moves b p).foldl (gvmStep p) ([], b)

/-- Board.move_piece.  The displacement is final - initial as numpy
vectors; the source tests abs(displacement[0]), the x component, for the
pawn double-step flag.  Success mutates the moved (and possibly
moved_twice) attribute and calls update_board; an illegal destination
raises ValueError, modelled as Except.error carrying the board state at
the raise. -/
def move_piece (b : Board) (p : Nat) (fc : Coord) : Except Board Board :=
  let vm := get_valid_moves b p
  let ip := vm.2.p2c p
  let dx := fc.x - ip.x
  if fc ∈ vm.1 then
    let a := vm.2.attrs p
    let a1 := { a with moved := true }
    let a2 := if a.kind = Kind.Pawn ∧ dx.natAbs = 2 then
        { a1 with movedTwice := true } else a1
    let b2 := { vm.2 with attrs := fun r => if r = p then a2 else vm.2.attrs r }
    Except.ok (update_board b2 p fc)
  else
    Except.error vm.2

/-- Observation of a successful move_piece result. -/
def okObs {α : Type} (r : Except Board Board) (f : Board → α) : Option α :=
  match r with
  | Except.ok b2 => some (f b2)
  | Except.error _ => none

/-- The Python hash of a Piece in Piece_Class.py:
hash((color.value, index.value, type(self).__name__)), modelled by the
triple itself (class names are in bijection with Kind). -/
def pieceKey (a : PieceAttrs) : Nat × Nat × Kind :=
  ((match a.color with
    | Color.Black => 0
    | Color.White => 1
    | Color.Blank => 2), a.index, a.kind)

/-- A CPython dict lookup on piece_to_coordinate: an entry is found when
its hash equals the hash of the query and the keys compare equal; Piece
defines __hash__ but no __eq__, so the comparison falls back to object
identity, i.e. equality of object ids. -/
def pyDictLookup (entries : List (Nat × Coord)) (attrsOf : Nat → PieceAttrs)
    (q : Nat) : Option Coord :=
  match entries.find? (fun e =>
      decide (pieceKey (attrsOf e.1) = pieceKey (attrsOf q)) && decide (e.1 = q)) with
  | some e => some e.2
  | none => none

/-- The spec description of one sliding ray (section 4.3 of the spec):
d is reached at some step k in 1..8, every strictly earlier step lands
in bounds on a Blank square, and d itself is Blank or enemy-occupied. -/
def slidingReachSpec (b : Board) (cur : Coord) (dir : Vec) (pcol : Color)
    (d : Coord) : Prop :=
  ∃ k, 1 ≤ k ∧ k ≤ 8 ∧ addCoord cur (smulVec k dir) = some d ∧
    (∀ j, 1 ≤ j → j < k →
      ∃ c2, addCoord cur (smulVec j dir) = some c2 ∧ colorAt b c2 = Color.Blank) ∧
    (colorAt b d = Color.Blank ∨ colorAt b d ≠ pcol)

/-- The spec description of the whole sliding move set (section 4.3 of
the spec): some catalog vector, taken forwards or negated, reaches d by
the ray walk. -/
def slidingSpec (b : Board) (p : Nat) (d : Coord) : Prop :=
  ∃ v ∈ movements (b.attrs p),
    (slidingReachSpec b (b.p2c p) v (b.attrs p).color d ∨
     slidingReachSpec b (b.p2c p) (negVec v) (b.attrs p).color d)

/-- The attribute record of a blank-square occupant. -/
def blankA : PieceAttrs := ⟨Kind.base, Color.Blank, 1, false, false⟩

/-- Square number of a coordinate, used to give every blank occupant of
a test position its own object id. -/
def sqId (c : Coord) : Nat := (c.x - 1).toNat * 8 + (c.y - 1).toNat

/-- A consistent test position: white pawn (id 0) on e2, white king
(id 1, moved) on e1, black king (id 2, moved) on e8, white knight (id 3)
on b1, white rook (id 4) on h1; every other square holds its own blank
occupant with id 10 + square number.  Both maps mirror each other
exactly, as after Board.__init__. -/
def board4 : Board :=
  { pieces := [0, 1, 2, 3, 4] ++ (List.range 64).map (fun i => 10 + i)
    attrs := fun q =>
      if q = 0 then ⟨Kind.Pawn, Color.White, 5, false, false⟩
      else if q = 1 then ⟨Kind.King, Color.White, 5, true, false⟩
      else if q = 2 then ⟨Kind.King, Color.Black, 5, true, false⟩
      else if q = 3 then ⟨Kind.Knight, Color.White, 2, false, false⟩
      else if q = 4 then ⟨Kind.Castle, Color.White, 8, false, false⟩
      else blankA
    p2c := fun q =>
      if q = 0 then ⟨5, 2⟩
      else if q = 1 then ⟨5, 1⟩
      else if q = 2 then ⟨5, 8⟩
      else if q = 3 then ⟨2, 1⟩
      else if q = 4 then ⟨8, 1⟩
      else if 10 ≤ q ∧ q ≤ 73 then ⟨((q - 10) / 8 : Nat) + 1, ((q - 10) % 8 : Nat) + 1⟩
      else ⟨1, 1⟩
    c2p := fun c =>
      if c = ⟨5, 2⟩ then 0
      else if c = ⟨5, 1⟩ then 1
      else if c = ⟨5, 8⟩ then 2
      else if c = ⟨2, 1⟩ then 3
      else if c = ⟨8, 1⟩ then 4
      else 10 + sqId c
    whiteKing := 1
    blackKing := 2 }

/-- A lone white king (id 0) on e4 with the moved flag set, black king
(id 1) far away on a8; every other square blank. -/
def kingBoard : Board :=
  { pieces := [0, 1]
    attrs := fun q =>
      if q = 0 then ⟨Kind.King, Color.White, 5, true, false⟩
      else if q = 1 then ⟨Kind.King, Color.Black, 5, true, false⟩
      else blankA
    p2c := fun q => if q = 0 then ⟨5, 4⟩ else if q = 1 then ⟨1, 8⟩ else ⟨1, 1⟩
    c2p := fun c => if c = ⟨5, 4⟩ then 0 else if c = ⟨1, 8⟩ then 1 else 100
    whiteKing := 0
    blackKing := 1 }

/-- An en-passant position: white pawn (id 0) on e5, black pawn (id 1)
on d5 with moved_twice set (it has just advanced two squares), kings on
e1 and e8, d6 empty. -/
def epBoard : Board :=
  { pieces := [0, 1, 2, 3]
    attrs := fun q =>
      if q = 0 then ⟨Kind.Pawn, Color.White, 5, true, false⟩
      else if q = 1 then ⟨Kind.Pawn, Color.Black, 4, true, true⟩
      else if q = 2 then ⟨Kind.King, Color.White, 5, true, false⟩
      else if q = 3 then ⟨Kind.King, Color.Black, 5, true, false⟩
      else blankA
    p2c := fun q =>
      if q = 0 then ⟨5, 5⟩ else if q = 1 then ⟨4, 5⟩
      else if q = 2 then ⟨5, 1⟩ else if q = 3 then ⟨5, 8⟩ else ⟨1, 1⟩
    c2p := fun c =>
      if c = ⟨5, 5⟩ then 0 else if c = ⟨4, 5⟩ then 1
      else if c = ⟨5, 1⟩ then 2 else if c = ⟨5, 8⟩ then 3 else 100
    whiteKing := 2
    blackKing := 3 }

/-- A castling position: white king (id 0) on e1 and white rook (id 1)
on h1, both unmoved; f1 and g1 empty, so the kingside conditions hold;
but b1 is occupied by a white knight (id 2) and a1 is empty, so the
queenside castle is not available. -/
def castleBoard : Board :=
  { pieces := [0, 1, 2, 3]
    attrs := fun q =>
      if q = 0 then ⟨Kind.King, Color.White, 5, false, false⟩
      else if q = 1 then ⟨Kind.Castle, Color.White, 8, false, false⟩
      else if q = 2 then ⟨Kind.Knight, Color.White, 2, false, false⟩
      else if q = 3 then ⟨Kind.King, Color.Black, 5, true, false⟩
      else blankA
    p2c := fun q =>
      if q = 0 then ⟨5, 1⟩ else if q = 1 then ⟨8, 1⟩
      else if q = 2 then ⟨2, 1⟩ else if q = 3 then ⟨5, 8⟩ else ⟨1, 1⟩
    c2p := fun c =>
      if c = ⟨5, 1⟩ then 0 else if c = ⟨8, 1⟩ then 1
      else if c = ⟨2, 1⟩ then 2 else if c = ⟨5, 8⟩ then 3 else 100
    whiteKing := 0
    blackKing := 3 }

/-- A pawn-blocked position: white pawn (id 0) on e2, unmoved; a black
pawn (id 1) sits directly ahead on e3; e4 is empty; kings far away. -/
def pawnBoard : Board :=
  { pieces := [0, 1, 2, 3]
    attrs := fun q =>
      if q = 0 then ⟨Kind.Pawn, Color.White, 5, false, false⟩
      else if q = 1 then ⟨Kind.Pawn, Color.Black, 5, true, false⟩
      else if q = 2 then ⟨Kind.King, Color.White, 5, true, false⟩
      else if q = 3 then ⟨Kind.King, Color.Black, 5, true, false⟩
      else blankA
    p2c := fun q =>
      if q = 0 then ⟨5, 2⟩ else if q = 1 then ⟨5, 3⟩
      else if q = 2 then ⟨8, 1⟩ else if q = 3 then ⟨8, 8⟩ else ⟨1, 1⟩
    c2p := fun c =>
      if c = ⟨5, 2⟩ then 0 else if c = ⟨5, 3⟩ then 1
      else if c = ⟨8, 1⟩ then 2 else if c = ⟨8, 8⟩ then 3 else 100
    whiteKing := 2
    blackKing := 3 }

/-- Attribute heap for the identity-lookup experiment: object 0 is the
white b-file knight that sits in the dictionary, object 999 is a freshly
constructed Knight(Color.White, Index.b) with exactly the same color,
origin-file index and class, as on line 12 of src/Main.py. -/
def c10Attrs : Nat → PieceAttrs := fun q =>
  if q = 0 then ⟨Kind.Knight, Color.White, 2, false, false⟩
  else if q = 999 then ⟨Kind.Knight, Color.White, 2, false, false⟩
  else ⟨Kind.King, Color.White, 5, false, false⟩

/-- Dictionary entries for the identity-lookup experiment: the stored
knight (id 0) maps to b1 and a king (id 1) maps to e1. -/
def c10Entries : List (Nat × Coord) := [(0, ⟨2, 1⟩), (1, ⟨5, 1⟩)]

theorem is_king_exposed_snd (b : Board) (p : Nat) (pp : Coord) :
    (is_king_exposed b p pp).2 = kingExposedRestore b p pp := rfl

theorem kingExposedRestore_eq (b : Board) (p : Nat) (pp : Coord)
    (h1 : b.c2p (b.p2c p) = p) (h2 : b.p2c (b.c2p pp) = pp)
    (hp : p ∈ b.pieces) (hq : b.c2p pp ∈ b.pieces) :
    kingExposedRestore b p pp = b := by
  cases b with
  | mk pieces attrs p2c c2p wk bk =>
    simp only [kingExposedRestore, update_board] at *
    simp only [Board.mk.injEq]
    refine ⟨?_, trivial, ?_, ?_, trivial, trivial⟩
    · simp [hp, hq]
    · funext r
      by_cases hr : r = p
      · subst hr; simp
      · simp only [hr, if_false]
        by_cases hr2 : r = c2p pp
        · subst hr2; simp [h2]
        · simp [hr, hr2]
    · funext c
      by_cases hc : c = p2c p
      · subst hc; simp [h1]
      · simp only [hc, if_false]
        by_cases hc2 : c = pp
        · subst hc2; simp
        · simp [hc2]

theorem gvm_foldl_snd (b : Board) (p : Nat)
    (h1 : b.c2p (b.p2c p) = p) (hp : p ∈ b.pieces) :
    ∀ (ms : List Coord),
      (∀ m ∈ ms, b.p2c (b.c2p m) = m) →
      (∀ m ∈ ms, b.c2p m ∈ b.pieces) →
      ∀ (acc : List Coord), (ms.foldl (gvmStep p) (acc, b)).2 = b := by
  intro ms
  induction ms with
  | nil => intro _ _ acc; rfl
  | cons m ms ih =>
    intro hA hB acc
    have hre : (is_king_exposed b p m).2 = b :=
      (is_king_exposed_snd b p m).trans
        (kingExposedRestore_eq b p m h1 (hA m (by simp)) hp (hB m (by simp)))
    have hstep : gvmStep p (acc, b) m =
        (if (is_king_exposed b p m).1 = true then acc else acc ++ [m], b) := by
      simp only [gvmStep, hre]
    rw [List.foldl_cons, hstep]
    exact ih (fun x hx => hA x (List.mem_cons_of_mem _ hx))
      (fun x hx => hB x (List.mem_cons_of_mem _ hx)) _

theorem gvm_snd (b : Board) (p : Nat)
    (h1 : b.c2p (b.p2c p) = p) (hp : p ∈ b.pieces)
    (h2 : ∀ m ∈ get_moves b p, b.p2c (b.c2p m) = m)
    (hq : ∀ m ∈ get_moves b p, b.c2p m ∈ b.pieces) :
    (get_valid_moves b p).2 = b :=
  gvm_foldl_snd b p h1 hp (get_moves b p) h2 hq []

theorem mem_checkMovesStrongAux (b : Board) (cur : Coord) (dir : Vec)
    (pcol : Color) (fuel : Nat) :
    ∀ (k : Nat) (d : Coord),
      d ∈ checkMovesStrongAux b cur dir pcol fuel k ↔
      ∃ i, k ≤ i ∧ i < k + fuel ∧ addCoord cur (smulVec i dir) = some d ∧
        (∀ j, k ≤ j → j < i →
          ∃ c2, addCoord cur (smulVec j dir) = some c2 ∧ colorAt b c2 = Color.Blank) ∧
        (colorAt b d = Color.Blank ∨ colorAt b d ≠ pcol) := by
  induction fuel with
  | zero =>
    intro k d
    simp only [checkMovesStrongAux, List.not_mem_nil, false_iff]
    rintro ⟨i, hki, hlt, -⟩
    omega
  | succ fuel ih =>
    intro k d
    rw [checkMovesStrongAux]
    split
    next hstep =>
      simp only [List.not_mem_nil, false_iff]
      rintro ⟨i, hki, hlt, hadd, hblank, -⟩
      by_cases hik : i = k
      · subst hik; rw [hstep] at hadd; exact Option.noConfusion hadd
      · obtain ⟨c2, hc2, -⟩ := hblank k (le_refl k) (by omega)
        rw [hstep] at hc2; exact Option.noConfusion hc2
    next pos hstep =>
      by_cases hcol : colorAt b pos = Color.Blank
      · rw [if_pos hcol]
        simp only [List.mem_cons, ih (k + 1) d]
        constructor
        · rintro (rfl | ⟨i, hki, hlt, hadd, hblank, hlast⟩)
          · exact ⟨k, le_refl k, by omega, hstep, fun j hj hj2 => absurd hj2 (by omega),
              Or.inl hcol⟩
          · refine ⟨i, by omega, by omega, hadd, ?_, hlast⟩
            intro j hj hj2
            by_cases hjk : j = k
            · subst hjk; exact ⟨pos, hstep, hcol⟩
            · exact hblank j (by omega) hj2
        · rintro ⟨i, hki, hlt, hadd, hblank, hlast⟩
          by_cases hik : i = k
          · subst hik
            rw [hstep] at hadd
            exact Or.inl (Option.some.inj hadd).symm
          · refine Or.inr ⟨i, by omega, by omega, hadd, ?_, hlast⟩
            intro j hj hj2
            exact hblank j (by omega) hj2
      · rw [if_neg hcol]
        by_cases hcol2 : colorAt b pos ≠ pcol
        · rw [if_pos hcol2]
          simp only [List.mem_singleton]
          constructor
          · rintro rfl
            exact ⟨k, le_refl k, by omega, hstep,
              fun j hj hj2 => absurd hj2 (by omega), Or.inr hcol2⟩
          · rintro ⟨i, hki, hlt, hadd, hblank, hlast⟩
            by_cases hik : i = k
            · subst hik
              rw [hstep] at hadd
              exact (Option.some.inj hadd).symm
            · obtain ⟨c2, hc2, hc2b⟩ := hblank k (le_refl k) (by omega)
              rw [hstep] at hc2
              exact absurd ((Option.some.inj hc2) ▸ hc2b) hcol
        · rw [if_neg hcol2]
          simp only [List.not_mem_nil, false_iff]
          rintro ⟨i, hki, hlt, hadd, hblank, hlast⟩
          by_cases hik : i = k
          · subst hik
            rw [hstep] at hadd
            obtain rfl := Option.some.inj hadd
            rcases hlast with h3 | h3
            · exact hcol h3
            · exact hcol2 h3
          · obtain ⟨c2, hc2, hc2b⟩ := hblank k (le_refl k) (by omega)
            rw [hstep] at hc2
            exact absurd ((Option.some.inj hc2) ▸ hc2b) hcol

theorem mem_check_moves_strong (b : Board) (cur : Coord) (dir : Vec)
    (pcol : Color) (d : Coord) :
    d ∈ check_moves_strong b cur dir pcol ↔ slidingReachSpec b cur dir pcol d := by
  rw [check_moves_strong, mem_checkMovesStrongAux]
  constructor
  · rintro ⟨i, h1i, h2i, h3i, h4i, h5i⟩
    exact ⟨i, h1i, by omega, h3i, h4i, h5i⟩
  · rintro ⟨i, h1i, h2i, h3i, h4i, h5i⟩
    exact ⟨i, h1i, by omega, h3i, h4i, h5i⟩

theorem mem_foldl_append {α β : Type} (l : List α) (f : α → List β) :
    ∀ (init : List β) (d : β),
      d ∈ l.foldl (fun acc v => acc ++ f v) init ↔ d ∈ init ∨ ∃ v ∈ l, d ∈ f v := by
  induction l with
  | nil => intro init d; simp
  | cons a l ih =>
    intro init d
    rw [List.foldl_cons, ih]
    simp only [List.mem_append, List.mem_cons]
    constructor
    · rintro ((h | h) | ⟨v, hv, hd⟩)
      · exact Or.inl h
      · exact Or.inr ⟨a, Or.inl rfl, h⟩
      · exact Or.inr ⟨v, Or.inr hv, hd⟩
    · rintro (h | ⟨v, (rfl | hv), hd⟩)
      · exact Or.inl (Or.inl h)
      · exact Or.inl (Or.inr hd)
      · exact Or.inr ⟨v, hv, hd⟩

/-- Claim C1 (code_bug witness evaluation): after the successful call
move_piece(knight, a3) on the consistent position board4, the knight
(id 3) is the coordinate_to_piece occupant of BOTH its old square b1 and
the destination a3, while piece_to_coordinate sends it to a3 only; so
the occupant of b1 no longer maps back to b1 and the two maps are not a
bijection, contradicting the claimed invariant.  move_piece never blanks
the vacated square and never removes the displaced occupant. -/
theorem move_piece_breaks_bijection :
    okObs (move_piece board4 3 ⟨1, 3⟩)
      (fun b2 => (b2.c2p ⟨2, 1⟩, b2.c2p ⟨1, 3⟩, b2.p2c (b2.c2p ⟨2, 1⟩))) =
      some (3, 3, ⟨1, 3⟩) ∧ (⟨1, 3⟩ : Coord) ≠ ⟨2, 1⟩ := by
  decide

/-- Claim C2 (code_bug witness evaluation): the white pawn on e2 (id 0)
legally advances two squares to e4 on board4.  has_moved is set, but
moved_twice stays false (the source tests abs(displacement[0]), the file
delta, which is 0 for a pawn double step), and the vacated square e2
still holds the white pawn in coordinate_to_piece instead of becoming
Blank. -/
theorem move_piece_flags_and_vacated_square :
    okObs (move_piece board4 0 ⟨5, 4⟩)
      (fun b2 => ((b2.attrs 0).moved, (b2.attrs 0).movedTwice,
        (b2.attrs (b2.c2p ⟨5, 2⟩)).kind, (b2.attrs (b2.c2p ⟨5, 2⟩)).color)) =
      some (true, false, Kind.Pawn, Color.White) := by
  decide

/-- Claim C3: for a piece p on the board and a pseudo-legal destination
d of p, is_king_exposed leaves the whole board state (both maps, the key
list and all piece attributes) exactly as before the call, whatever its
boolean result.  The consistency hypotheses state that the two maps
mirror each other at the origin of p and at d, which is the standing
bijection invariant of the board. -/
theorem is_king_exposed_restores_board (b : Board) (p : Nat) (d : Coord)
    (_hd : d ∈ get_moves b p)
    (h1 : b.c2p (b.p2c p) = p) (h2 : b.p2c (b.c2p d) = d)
    (hp : p ∈ b.pieces) (hq : b.c2p d ∈ b.pieces) :
    (is_king_exposed b p d).2 = b :=
  (is_king_exposed_snd b p d).trans (kingExposedRestore_eq b p d h1 h2 hp hq)

/-- Claim C3 witness: the knight (id 3) on board4 with its pseudo-legal
destination a3. -/
theorem is_king_exposed_restores_board_witness :
    (⟨1, 3⟩ : Coord) ∈ get_moves board4 3 ∧
      (is_king_exposed board4 3 ⟨1, 3⟩).2 = board4 :=
  ⟨by decide, is_king_exposed_restores_board board4 3 ⟨1, 3⟩ (by decide)
    (by decide) (by decide) (by decide) (by decide)⟩

/-- Claim C4: move_piece raises the illegal-move ValueError exactly when
the destination is not in get_valid_moves, and in that case the board it
leaves behind (maps, key list and every piece attribute) is exactly the
board before the call.  The hypotheses are the mirror-consistency of the
two maps at the moving piece and at each of its pseudo-legal
destinations — the standing bijection invariant. -/
theorem move_piece_illegal_iff_error (b : Board) (p : Nat) (d : Coord)
    (h1 : b.c2p (b.p2c p) = p) (hp : p ∈ b.pieces)
    (h2 : ∀ m ∈ get_moves b p, b.p2c (b.c2p m) = m)
    (hq : ∀ m ∈ get_moves b p, b.c2p m ∈ b.pieces) :
    move_piece b p d = Except.error b ↔ d ∉ (get_valid_moves b p).1 := by
  have hb : (get_valid_moves b p).2 = b := gvm_snd b p h1 hp h2 hq
  by_cases hm : d ∈ (get_valid_moves b p).1
  · simp only [move_piece]
    rw [if_pos hm]
    constructor
    · intro h3; exact Except.noConfusion h3
    · intro h3; exact absurd hm h3
  · simp only [move_piece]
    rw [if_neg hm, hb]
    exact ⟨fun _ => hm, fun _ => rfl⟩

/-- Claim C4 witness: asking the knight (id 3) of board4 to move to e5,
which is not one of its valid moves. -/
theorem move_piece_illegal_iff_error_witness :
    (⟨5, 5⟩ : Coord) ∉ (get_valid_moves board4 3).1 ∧
      (move_piece board4 3 ⟨5, 5⟩ = Except.error board4 ↔
        (⟨5, 5⟩ : Coord) ∉ (get_valid_moves board4 3).1) :=
  ⟨by decide, move_piece_illegal_iff_error board4 3 ⟨5, 5⟩ (by decide)
    (by decide) (by decide) (by decide)⟩

/-- Claim C5: for a sliding piece (strong_piece true: bishop, rook,
queen), get_moves holds a square exactly when some catalog vector, taken
in its own direction or negated, reaches it by the spec walk: steps
k = 1..8 from the origin, every earlier step in bounds and Blank
(otherwise the walk has stopped), and the landing square Blank
(continue) or enemy-occupied (capture, stop); a friendly occupant or an
out-of-bounds step yields no square. -/
theorem mem_get_moves_sliding (b : Board) (p : Nat)
    (hs : strongPiece (b.attrs p) = true) (d : Coord) :
    d ∈ get_moves b p ↔ slidingSpec b p d := by
  have hgm : get_moves b p =
      (movements (b.attrs p)).foldl
        (fun acc mv =>
          acc ++ (check_moves_strong b (b.p2c p) mv (b.attrs p).color ++
                  check_moves_strong b (b.p2c p) (negVec mv) (b.attrs p).color)) [] := by
    rw [get_moves]
    rw [if_neg (by rw [hs]; exact fun h => Bool.noConfusion h)]
  rw [hgm,
    mem_foldl_append (movements (b.attrs p))
      (fun mv => check_moves_strong b (b.p2c p) mv (b.attrs p).color ++
                 check_moves_strong b (b.p2c p) (negVec mv) (b.attrs p).color)]
  simp only [List.not_mem_nil, false_or, List.mem_append, mem_check_moves_strong]
  rfl

/-- Claim C5 witness: the white rook (id 4) on h1 of board4, instantiated
at the square h5. -/
theorem mem_get_moves_sliding_witness :
    strongPiece (board4.attrs 4) = true ∧
      ((⟨8, 5⟩ : Coord) ∈ get_moves board4 4 ↔ slidingSpec board4 4 ⟨8, 5⟩) :=
  ⟨by decide, mem_get_moves_sliding board4 4 (by decide) ⟨8, 5⟩⟩

/-- Claim C6 (code_bug witness evaluation): the king catalog in
Piece_Class.py has only the four vectors up-right, up-left, up and right
(it lacks, e.g., the downward unit vector), and since the king is not a
strong piece no negation is applied; hence the moved white king on e4 of
kingBoard cannot reach the empty in-bounds adjacent square d3, although
the claim promises every adjacent non-friendly square in all 8
directions. -/
theorem king_moves_catalog_incomplete :
    ((0, -1) : Vec) ∉ movements (kingBoard.attrs 0) ∧
      (movements (kingBoard.attrs 0)).length = 4 ∧
      colorAt kingBoard ⟨4, 3⟩ = Color.Blank ∧
      (⟨4, 3⟩ : Coord) ∉ get_moves kingBoard 0 := by
  decide

/-- Claim C7 (code_bug witness evaluation): on epBoard the white pawn on
e5 faces the en-passant situation the claim describes — d6 empty and the
black pawn directly behind it on d5 with moved_twice set — yet d6 is not
generated, because the source guards the en-passant branch with the
expression piece_at_en_passant is Pawn, an identity comparison with the
class object that no instance ever satisfies. -/
theorem en_passant_capture_missing :
    colorAt epBoard ⟨4, 6⟩ = Color.Blank ∧
      (epBoard.attrs (epBoard.c2p ⟨4, 5⟩)).kind = Kind.Pawn ∧
      (epBoard.attrs (epBoard.c2p ⟨4, 5⟩)).movedTwice = true ∧
      (epBoard.attrs (epBoard.c2p ⟨4, 5⟩)).color = Color.Black ∧
      (⟨4, 6⟩ : Coord) ∉ get_moves epBoard 0 := by
  decide

/-- Claim C8 (code_bug witness evaluation): on castleBoard the queenside
castle is unavailable (b1 holds a white knight and a1 holds no rook),
yet the far-castle destination c1 is generated for the unmoved white
king, because the source branches on move[1] — the y component, which is
0 for both castle vectors — so the far castle is validated with the
kingside f1/g1/h1 conditions, which hold. -/
theorem far_castle_checks_wrong_side :
    colorAt castleBoard ⟨2, 1⟩ = Color.White ∧
      (castleBoard.attrs (castleBoard.c2p ⟨1, 1⟩)).kind ≠ Kind.Castle ∧
      (castleBoard.attrs 0).moved = false ∧
      (⟨3, 1⟩ : Coord) ∈ get_moves castleBoard 0 := by
  decide

/-- Claim C9 (code_bug witness evaluation): on pawnBoard the unmoved
white pawn on e2 has an enemy pawn directly ahead on e3, yet both e3
(a straight-ahead capture) and e4 (a double step over the occupied e3)
are generated: straight pawn moves fall through to the default branch,
which only rejects a friendly occupant and never checks the intervening
square. -/
theorem pawn_forward_capture_and_jump :
    colorAt pawnBoard ⟨5, 3⟩ = Color.Black ∧
      (⟨5, 3⟩ : Coord) ∈ get_moves pawnBoard 0 ∧
      colorAt pawnBoard ⟨5, 4⟩ = Color.Blank ∧
      (⟨5, 4⟩ : Coord) ∈ get_moves pawnBoard 0 := by
  decide

/-- Claim C10 (code_bug witness evaluation): object 999 carries exactly
the same (color, origin-file, kind) triple — hence the same Python hash —
as the stored knight (object 0), yet a dict lookup with it fails
(KeyError), while a lookup with the stored object itself succeeds:
Piece defines __hash__ but no __eq__, so dictionary keying is by object
identity, not by the triple.  This is the crash of line 12 of
src/Main.py, which passes a freshly constructed Knight to move_piece. -/
theorem piece_lookup_requires_identity :
    pieceKey (c10Attrs 999) = pieceKey (c10Attrs 0) ∧
      pyDictLookup c10Entries c10Attrs 0 = some ⟨2, 1⟩ ∧
      pyDictLookup c10Entries c10Attrs 999 = none := by
  decide

end ChessRNs
